import Mathlib

/-!
Shallow embedding of the catalog reconciliation engine of
`imdb-playlist-to-plex-07.py`: the matching cascade (IMDB id, title+year
fuzzy, title-only fuzzy with a year veto), the membership index, and the
two-pass reconciler `run_imdb_list` (classification pass, then commit pass).

Python primitives (`str.lower`, `str.replace`, `str.strip`, `int`, `str` of
an integer, regex `tt\d+` search, `guid.split`) are modelled by explicit
structurally recursive functions so that every definition evaluates by
kernel reduction.  The external similarity scorer `fuzz.ratio` is a
parameter `sim : String → String → Nat` of every definition that uses it,
mirroring the fact that the repository treats it as an opaque collaborator.
-/

/-! ## Models of the Python string primitives -/

/-- Model of `str.lower` on one character (ASCII case folding, which is what
every title in the claims exercises). -/
def pyLowerChar (c : Char) : Char :=
  if 'A' ≤ c && c ≤ 'Z' then Char.ofNat (c.toNat + 32) else c

/-- Characters removed by Python `str.strip()` with no argument. -/
def isPyWS (c : Char) : Bool :=
  c = ' ' || c = '\t' || c = '\n' || c = '\r' || c = '\x0b' || c = '\x0c'

/-- Model of `str.strip()`: drop whitespace from both ends. -/
def pyStripChars (l : List Char) : List Char :=
  ((l.dropWhile isPyWS).reverse.dropWhile isPyWS).reverse

/-- Model of `s.replace("the ", "")`: remove every occurrence of the
four-character pattern `the `, scanning left to right and resuming after
each removed occurrence, exactly as Python `str.replace` does. -/
def removeThe : List Char → List Char
  | 't' :: 'h' :: 'e' :: ' ' :: rest => removeThe rest
  | c :: cs => c :: removeThe cs
  | [] => []

/-- Decimal digit character for `n % 10`. -/
def natDigitChar (n : Nat) : Char := Char.ofNat (48 + n % 10)

/-- Digits of `n` in reverse order; `fuel` bounds the recursion and is
always called with `fuel > n`'s digit count, so the fuel never runs out. -/
def natDigitsRevAux : Nat → Nat → List Char
  | 0, _ => []
  | f + 1, n => if n < 10 then [natDigitChar n] else
      natDigitChar (n % 10) :: natDigitsRevAux f (n / 10)

/-- Model of Python `str(n)` for a natural number. -/
def natRepr (n : Nat) : String := ⟨(natDigitsRevAux (n + 1) n).reverse⟩

/-- Model of Python `str(i)` for an integer (the library item's year). -/
def py_str_int (i : Int) : String :=
  if i < 0 then "-" ++ natRepr i.natAbs else natRepr i.natAbs

/-- Value of a digit list read in base 10. -/
def digitsToNat (ds : List Char) : Nat :=
  ds.foldl (fun n c => n * 10 + (c.toNat - 48)) 0

/-- Model of Python `int(s)` for a string: optional surrounding whitespace,
optional sign, at least one decimal digit; `none` models the `ValueError`
that Python raises on any other input. -/
def pyInt (s : String) : Option Int :=
  match pyStripChars s.data with
  | [] => none
  | '-' :: ds =>
      if !ds.isEmpty && ds.all (·.isDigit) then some (-(Int.ofNat (digitsToNat ds))) else none
  | '+' :: ds =>
      if !ds.isEmpty && ds.all (·.isDigit) then some (Int.ofNat (digitsToNat ds)) else none
  | ds =>
      if ds.all (·.isDigit) then some (Int.ofNat (digitsToNat ds)) else none

/-- Model of `re.search(r'(tt\d+)', url)`: scan for the leftmost position
where `tt` is followed by at least one digit and take the maximal digit run;
`fuel` is the length of the list being scanned, so it never runs out. -/
def ttScanF : Nat → List Char → Option (List Char)
  | 0, _ => none
  | f + 1, l =>
    match l with
    | 't' :: 't' :: rest =>
        let ds := rest.takeWhile (·.isDigit)
        if ds.isEmpty then ttScanF f ('t' :: rest) else some ('t' :: 't' :: ds)
    | _ :: cs => ttScanF f cs
    | [] => none

/-- `find_imdb_id`: extract the first `tt\d+` token from an IMDB URL,
`none` when the URL holds no such token. -/
def find_imdb_id (url : String) : Option String :=
  (ttScanF url.data.length url.data).map (fun cs => ⟨cs⟩)

/-- Scan past the first occurrence of `imdb://`; `none` when the marker
does not occur (models `'imdb://' in guid`). -/
def dropThroughImdb : List Char → Option (List Char)
  | 'i' :: 'm' :: 'd' :: 'b' :: ':' :: '/' :: '/' :: rest => some rest
  | _ :: cs => dropThroughImdb cs
  | [] => none

/-- Take characters up to the next `imdb://` marker (models taking element
`[1]` of `guid.split('imdb://')`). -/
def takeUntilImdb : List Char → List Char
  | 'i' :: 'm' :: 'd' :: 'b' :: ':' :: '/' :: '/' :: _ => []
  | c :: cs => c :: takeUntilImdb cs
  | [] => []

/-- Take characters up to the first `?` (models `.split('?')[0]`). -/
def takeUntilQ : List Char → List Char
  | '?' :: _ => []
  | c :: cs => c :: takeUntilQ cs
  | [] => []

/-- Model of the guid parsing done in `find_existing_collection_items` and
the `imdb_map` construction: `guid.split('imdb://')[1].split('?')[0]` when
`'imdb://' in guid`, else no identifier. -/
def extract_imdb_guid (guid : String) : Option String :=
  (dropThroughImdb guid.data).map (fun r => ⟨takeUntilQ (takeUntilImdb r)⟩)

/-! ## Data model -/

/-- One row of the source CSV list, already parsed (CSV parsing is out of
scope for the engine): the URL column, `Title`, `Original Title`, `Year`.
Missing fields arrive as the empty string. -/
structure SourceRow where
  url : String
  title : String
  original_title : String
  year : String
deriving Repr, DecidableEq

/-- Read-only snapshot of one Plex library item: `ratingKey` (the internal
key), display `title`, integer `year`, raw `guid` (from which the IMDB id
is extracted), and `librarySectionID`. -/
structure LibraryItem where
  ratingKey : Nat
  title : String
  year : Int
  guid : String
  librarySectionID : Nat
deriving Repr, DecidableEq

/-- One row of the final CSV report (`report_data` entries). `plex_year`
holds the stringified matched year, empty until a match is recorded. -/
structure ReportRecord where
  title : String
  year : String
  original_title : String
  imdb_id : String
  status : String
  match_method : String
  plex_title : String
  plex_year : String
  notes : String
deriving Repr, DecidableEq

/-- The report fields shared by every outcome, as initialized at the top of
the classification loop body. -/
def baseReport (row : SourceRow) (iid : Option String) : ReportRecord :=
  { title := row.title, year := row.year, original_title := row.original_title,
    imdb_id := iid.getD "", status := "", match_method := "",
    plex_title := "", plex_year := "", notes := "" }

/-! ## clean_title and the matchers -/

/-- `clean_title`: `title.lower().replace("the ", "").strip()`, with the
source's early return of `""` for a falsy title. -/
def clean_title (title : String) : String :=
  if title = "" then "" else ⟨pyStripChars (removeThe (title.data.map pyLowerChar))⟩

/-- The exact-match loop of `find_movie_by_title_year`: first movie whose
lowercased title equals the lowercased entry title (or, when the alternate
title is nonempty, the lowercased alternate title) and whose stringified
year equals the entry's year string. -/
def exactTY (movies : List LibraryItem) (title year orig : String) : Option LibraryItem :=
  movies.find? (fun m =>
    (⟨m.title.data.map pyLowerChar⟩ == (⟨title.data.map pyLowerChar⟩ : String)
      || (orig != "" && ⟨m.title.data.map pyLowerChar⟩ == (⟨orig.data.map pyLowerChar⟩ : String)))
    && (py_str_int m.year == year))

/-- `current_score` of one candidate in both fuzzy loops: the maximum of
the similarity of the cleaned candidate title against the cleaned entry
title and (when the alternate title is nonempty) against the cleaned
alternate title. -/
def tyScore (sim : String → String → Nat) (title orig : String) (m : LibraryItem) : Nat :=
  max (sim (clean_title m.title) (clean_title title))
      (if orig != "" then sim (clean_title m.title) (clean_title orig) else 0)

/-- The best-candidate accumulation loop shared by both fuzzy matchers:
keep the current best and its score, replacing it only when a candidate
satisfies the gate `p` and scores strictly higher. -/
def tyGo (p : LibraryItem → Bool) (f : LibraryItem → Nat) :
    List LibraryItem → Option LibraryItem → Nat → Option LibraryItem × Nat
  | [], b, h => (b, h)
  | m :: rest, b, h =>
      if p m && decide (h < f m) then tyGo p f rest (some m) (f m) else tyGo p f rest b h

/-- The fuzzy loop of `find_movie_by_title_year`: best score among
candidates whose stringified year equals the entry's year string, accepted
when the score reaches the title+year threshold 85. -/
def fuzzyTY (sim : String → String → Nat) (movies : List LibraryItem)
    (title year orig : String) : Option LibraryItem :=
  match tyGo (fun m => py_str_int m.year == year) (tyScore sim title orig) movies none 0 with
  | (some m, h) => if 85 ≤ h then some m else none
  | (none, _) => none

/-- `find_movie_by_title_year`: exact pass first, then the year-gated fuzzy
pass. -/
def find_movie_by_title_year (sim : String → String → Nat) (movies : List LibraryItem)
    (title year orig : String) : Option LibraryItem :=
  match exactTY movies title year orig with
  | some m => some m
  | none => fuzzyTY sim movies title year orig

/-- `find_movie_by_title`: best score over all candidates with no year
gate, accepted when the score reaches the title-only threshold 90. -/
def find_movie_by_title (sim : String → String → Nat) (movies : List LibraryItem)
    (title orig : String) : Option LibraryItem :=
  match tyGo (fun _ => true) (tyScore sim title orig) movies none 0 with
  | (some m, h) => if 90 ≤ h then some m else none
  | (none, _) => none

/-! ## Membership index and the imdb map -/

/-- The keys of `existing_collection_items`: the dict is keyed by every
member's `ratingKey` (an int) and, when the guid carries one, its IMDB id
(a string); since an int key never equals a string key, the dict is
faithfully a pair of key lists. -/
structure MembershipKeys where
  ratingKeys : List Nat
  imdbIds : List String
deriving Repr, DecidableEq

/-- `find_existing_collection_items`: index every current collection member
under its rating key and, when extractable, its IMDB id. -/
def find_existing_collection_items (items : List LibraryItem) : MembershipKeys :=
  { ratingKeys := items.map (·.ratingKey),
    imdbIds := items.filterMap (fun i => extract_imdb_guid i.guid) }

/-- Lookup in the `imdb_map` dict built by inserting every library movie
with an extractable guid id in list order (so a later duplicate id
overwrites an earlier one, as a Python dict does). -/
def imdb_map_get (movies : List LibraryItem) (iid : String) : Option LibraryItem :=
  movies.foldl (fun acc m =>
    match extract_imdb_guid m.guid with
    | some i => if i == iid then some m else acc
    | none => acc) none

/-! ## The reconciler: classification pass and commit pass -/

/-- Outcome of the matching cascade for one entry that carries an IMDB id:
`none` models the uncaught `ValueError` raised by `int(year)` in the year
veto (which aborts the whole run); `some none` is no match; `some (some
(m, method))` is a match with its match-method string. -/
def matched_cascade (sim : String → String → Nat) (all_movies : List LibraryItem)
    (iid : String) (row : SourceRow) : Option (Option (LibraryItem × String)) :=
  match imdb_map_get all_movies iid with
  | some m => some (some (m, "IMDB ID"))
  | none =>
    match find_movie_by_title_year sim all_movies row.title row.year row.original_title with
    | some m => some (some (m, "Title + Year Fuzzy Match"))
    | none =>
      match find_movie_by_title sim all_movies row.title row.original_title with
      | some m =>
          if row.year != "" then
            match pyInt row.year with
            | none => none
            | some y =>
                if 2 < (m.year - y).natAbs then some none
                else some (some (m, "Title Only Fuzzy Match"))
          else some (some (m, "Title Only Fuzzy Match"))
      | none => some none

/-- The four `continue`-branches of the classification loop body: an
immediate error record (no IMDB id), a missing record, an already-member
record, or an appended pending addition. -/
inductive ClassifyResult where
  | errored (r : ReportRecord)
  | missing (r : ReportRecord)
  | skipped (r : ReportRecord)
  | pending (m : LibraryItem) (r : ReportRecord) (method : String)
deriving Repr, DecidableEq

/-- The body of the classification loop for one CSV row; `none` models the
run-aborting exception from the year veto's `int(year)`. -/
def classify_entry (sim : String → String → Nat) (all_movies : List LibraryItem)
    (existing : MembershipKeys) (row : SourceRow) : Option ClassifyResult :=
  match find_imdb_id row.url with
  | none =>
      some (.errored { baseReport row none with
        status := "ERROR: No IMDB ID found"
        notes := "Invalid URL: " ++ row.url })
  | some iid =>
    match matched_cascade sim all_movies iid row with
    | none => none
    | some none =>
        some (.missing { baseReport row (some iid) with
          status := "MISSING: Not found in Plex library"
          notes := "Could not match by IMDB ID, title+year, or title only" })
    | some (some (m, method)) =>
        if existing.ratingKeys.contains m.ratingKey || existing.imdbIds.contains iid then
          some (.skipped { baseReport row (some iid) with
            status := "SKIPPED:"
            match_method := method
            plex_title := m.title
            plex_year := py_str_int m.year })
        else
          some (.pending m (baseReport row (some iid)) method)

/-- State accumulated by the classification pass: `report_data` so far, the
ordered pending-addition list, and the skipped / missing counters. -/
structure Pass1Out where
  reports : List ReportRecord
  pending : List (LibraryItem × ReportRecord × String)
  skipped : Nat
  missing : Nat
deriving Repr, DecidableEq

/-- The classification pass: one sequential traversal of the CSV rows,
appending a report record at once for error / missing / skipped entries and
queueing matched non-member entries on the pending list. -/
def pass1 (c : SourceRow → Option ClassifyResult) : List SourceRow → Pass1Out → Option Pass1Out
  | [], st => some st
  | row :: rest, st =>
    match c row with
    | none => none
    | some (.errored r) =>
        pass1 c rest { st with reports := st.reports ++ [r], missing := st.missing + 1 }
    | some (.missing r) =>
        pass1 c rest { st with reports := st.reports ++ [r], missing := st.missing + 1 }
    | some (.skipped r) =>
        pass1 c rest { st with reports := st.reports ++ [r], skipped := st.skipped + 1 }
    | some (.pending m r method) =>
        pass1 c rest { st with pending := st.pending ++ [(m, r, method)] }

/-- The report record emitted by the commit pass for one pending item,
depending on whether the add-capability call succeeded. -/
def commitReport (ok : Bool) (m : LibraryItem) (r : ReportRecord) (method : String) :
    ReportRecord :=
  if ok then
    { r with
      status := "ADDED:"
      match_method := method
      plex_title := m.title
      plex_year := py_str_int m.year }
  else
    { r with
      status := "ERROR:"
      match_method := method
      plex_title := m.title
      plex_year := py_str_int m.year
      notes := "Plex API error" }

/-- The commit pass over the pending list: invoke the add-capability once
per item in list order (returning also the invocation sequence), emit the
corresponding report record, and extend the added / missing counters; a
failure never stops the traversal. -/
def pass2 (addOk : LibraryItem → Bool) :
    List (LibraryItem × ReportRecord × String) →
    List ReportRecord × Nat × Nat × List LibraryItem
  | [] => ([], 0, 0, [])
  | (m, r, method) :: rest =>
    let ok := addOk m
    let out := pass2 addOk rest
    (commitReport ok m r method :: out.1,
     (if ok then out.2.1 + 1 else out.2.1),
     (if ok then out.2.2.1 else out.2.2.1 + 1),
     m :: out.2.2.2)

/-- Observable result of one engine run: the final `report_data`, the three
summary counters, and the sequence of add-capability invocations. -/
structure RunResult where
  reports : List ReportRecord
  added : Nat
  skipped : Nat
  missing : Nat
  invocations : List LibraryItem
deriving Repr, DecidableEq

/-- The core of `run_imdb_list` after the snapshot fetches: build the
membership index from the current collection members, run the
classification pass over the CSV rows, then the commit pass over the
pending list; `none` models the run dying on the year veto's `int`. -/
def run_imdb_list (sim : String → String → Nat) (addOk : LibraryItem → Bool)
    (all_movies collection_items : List LibraryItem) (rows : List SourceRow) :
    Option RunResult :=
  let existing := find_existing_collection_items collection_items
  match pass1 (classify_entry sim all_movies existing) rows ⟨[], [], 0, 0⟩ with
  | none => none
  | some p1 =>
    let out := pass2 addOk p1.pending
    some { reports := p1.reports ++ out.1, added := out.2.1, skipped := p1.skipped,
           missing := p1.missing + out.2.2.1, invocations := out.2.2.2 }

/-! ## Definitions for stating the claims -/

/-- The normalizer exactly as claim C7 words it: fold to lower case, strip
one leading `the ` token, and trim trailing whitespace only, leaving all
other text unchanged.  To be compared against `clean_title`. -/
def clean_title_claimed (title : String) : String :=
  if title = "" then "" else
    let low := title.data.map pyLowerChar
    let stripped :=
      match low with
      | 't' :: 'h' :: 'e' :: ' ' :: rest => rest
      | l => l
    ⟨(stripped.reverse.dropWhile isPyWS).reverse⟩

/-- Split at every occurrence of the pattern `the `, scanning left to
right; concatenating the groups is an independent formulation of removing
every occurrence of the pattern. -/
def splitOnThe : List Char → List (List Char)
  | 't' :: 'h' :: 'e' :: ' ' :: rest => [] :: splitOnThe rest
  | c :: cs =>
    match splitOnThe cs with
    | g :: gs => (c :: g) :: gs
    | [] => [[c]]
  | [] => [[]]

/-- The normalizer as amended claim C7 describes it: lower-case the title,
remove every occurrence of the four-character pattern `the ` (scanning left
to right, not only a leading article), and strip whitespace from both ends;
built from `splitOnThe` so the comparison with `clean_title` has
independent content. -/
def clean_title_amended (title : String) : String :=
  ⟨pyStripChars (splitOnThe (title.data.map pyLowerChar)).flatten⟩

/-- The report record that the classification pass appends at once for a
row (error, missing, or already-member), `none` for a row that goes on the
pending list or for a row on which the run crashes. -/
def p1ReportOf (c : SourceRow → Option ClassifyResult) (row : SourceRow) :
    Option ReportRecord :=
  match c row with
  | some (.errored r) => some r
  | some (.missing r) => some r
  | some (.skipped r) => some r
  | _ => none

/-- The pending-addition triple that the classification pass queues for a
row, `none` for every other outcome. -/
def p1PendingOf (c : SourceRow → Option ClassifyResult) (row : SourceRow) :
    Option (LibraryItem × ReportRecord × String) :=
  match c row with
  | some (.pending m r method) => some (m, r, method)
  | _ => none

/-- Whether a row is classified as already a member (counts as skipped). -/
def isSkipRow (c : SourceRow → Option ClassifyResult) (row : SourceRow) : Bool :=
  match c row with
  | some (.skipped _) => true
  | _ => false

/-- Whether a row is classified on the spot as an error or as missing
(both count toward the missing counter). -/
def isMissRow (c : SourceRow → Option ClassifyResult) (row : SourceRow) : Bool :=
  match c row with
  | some (.errored _) => true
  | some (.missing _) => true
  | _ => false

/-! ## Concrete fixtures used by witnesses and counterexamples -/

/-- A concrete similarity scorer for witness runs: 100 on equal cleaned
titles, 0 otherwise (any scorer is admissible; the engine treats it as an
opaque collaborator). -/
def simEq : String → String → Nat := fun a b => if a = b then 100 else 0

/-- A concrete constant similarity scorer used by fuzzy-tier witnesses. -/
def simConst (n : Nat) : String → String → Nat := fun _ _ => n

/-- A library item carrying an IMDB guid. -/
def mvArrival : LibraryItem := ⟨42, "Arrival", 2016, "imdb://tt2543164?lang=en", 7⟩

/-- A library item without an IMDB guid. -/
def mvFoo : LibraryItem := ⟨1, "Foo", 2000, "local://1", 7⟩

/-- A library item without an IMDB guid and an early year, for the
title-only year veto. -/
def mvOld : LibraryItem := ⟨2, "Foo", 1990, "local://2", 7⟩

/-- A CSV row whose URL carries the IMDB id of `mvArrival`. -/
def rowArrival : SourceRow := ⟨"https://www.imdb.com/title/tt2543164/", "Arrival", "", "2016"⟩

/-- A CSV row whose URL carries no IMDB id. -/
def rowNoUrl : SourceRow := ⟨"nourl", "B", "", ""⟩

/-- A CSV row with an IMDB id that is in no library guid, a title that
matches nothing exactly, and a year matching `mvFoo`. -/
def rowBar : SourceRow := ⟨"https://www.imdb.com/title/tt7/", "Bar", "", "2000"⟩

/-- A CSV row with an IMDB id that is in no library guid and an empty
year. -/
def rowNoYear : SourceRow := ⟨"https://www.imdb.com/title/tt8/", "Bar", "", ""⟩

/-- A CSV row with an IMDB id that is in no library guid and a year 26
apart from `mvOld`'s. -/
def rowFar : SourceRow := ⟨"https://www.imdb.com/title/tt9/", "Bar", "", "2016"⟩

/-- The always-succeeding add-capability used by witness runs. -/
def addAlways : LibraryItem → Bool := fun _ => true

/-- The always-failing add-capability used by the idempotency
counterexample. -/
def addNever : LibraryItem → Bool := fun _ => false

/-- The result of the witness run
`run_imdb_list simEq addAlways [mvArrival] [] [rowArrival, rowNoUrl]`,
written out: the no-id row is reported first (during classification), the
added row second (during commit). -/
def resW : RunResult :=
  { reports :=
      [{ title := "B", year := "", original_title := "", imdb_id := "",
         status := "ERROR: No IMDB ID found", match_method := "", plex_title := "",
         plex_year := "", notes := "Invalid URL: nourl" },
       { title := "Arrival", year := "2016", original_title := "",
         imdb_id := "tt2543164", status := "ADDED:", match_method := "IMDB ID",
         plex_title := "Arrival", plex_year := "2016", notes := "" }],
    added := 1, skipped := 0, missing := 1, invocations := [mvArrival] }


/-! ## Helper lemmas -/

theorem removeThe_eq_flatten (l : List Char) : removeThe l = (splitOnThe l).flatten := by
  induction l using removeThe.induct with
  | case1 rest ih => simp [removeThe, splitOnThe, ih]
  | case2 c cs h ih =>
      rw [removeThe.eq_2 c cs h, splitOnThe.eq_2 c cs h, ih]
      rcases hs : splitOnThe cs with _ | ⟨g, gs⟩ <;> simp [hs]
  | case3 => simp [removeThe, splitOnThe]

theorem natDigitsRevAux_ne_nil (f n : Nat) : natDigitsRevAux (f + 1) n ≠ [] := by
  rw [natDigitsRevAux]
  split <;> simp

theorem natRepr_ne_empty (n : Nat) : natRepr n ≠ "" := by
  intro h
  have hd : (natRepr n).data = [] := by rw [h]
  have : (natDigitsRevAux (n + 1) n).reverse = [] := hd
  rw [List.reverse_eq_nil_iff] at this
  exact natDigitsRevAux_ne_nil n n this

theorem py_str_int_ne_empty (i : Int) : py_str_int i ≠ "" := by
  unfold py_str_int
  split
  · intro h
    have hd : ("-" ++ natRepr i.natAbs).data = [] := by rw [h]
    rw [String.data_append] at hd
    simp at hd
  · exact natRepr_ne_empty i.natAbs

theorem py_str_int_beq_empty (i : Int) : (py_str_int i == "") = false :=
  beq_eq_false_iff_ne.mpr (py_str_int_ne_empty i)

theorem tyGo_gate_false (p : LibraryItem → Bool) (f : LibraryItem → Nat) :
    ∀ (l : List LibraryItem) (b : Option LibraryItem) (h : Nat),
      (∀ m ∈ l, p m = false) → tyGo p f l b h = (b, h) := by
  intro l
  induction l with
  | nil => intro b h _; rfl
  | cons x xs ih =>
      intro b h hall
      rw [tyGo, hall x (by simp), Bool.false_and, if_neg (by simp)]
      exact ih b h (fun m hm => hall m (by simp [hm]))

theorem tyGo_chr (p : LibraryItem → Bool) (f : LibraryItem → Nat) :
    ∀ (l : List LibraryItem) (b0 : Option LibraryItem) (h0 : Nat) (m : LibraryItem) (h : Nat),
      tyGo p f l b0 h0 = (some m, h) →
      (b0 = some m ∧ h0 = h ∧ ∀ x ∈ l, p x = true → f x ≤ h) ∨
      (∃ l1 l2, l = l1 ++ m :: l2 ∧ h = f m ∧ p m = true ∧ h0 < f m ∧
        (∀ x ∈ l1, p x = true → f x < f m) ∧ (∀ x ∈ l2, p x = true → f x ≤ f m)) := by
  intro l
  induction l with
  | nil =>
      intro b0 h0 m h hg
      rw [tyGo] at hg
      left
      refine ⟨congrArg Prod.fst hg, congrArg Prod.snd hg, ?_⟩
      intro x hx
      simp at hx
  | cons x xs ih =>
      intro b0 h0 m h hg
      rw [tyGo] at hg
      by_cases hc : (p x && decide (h0 < f x)) = true
      · rw [if_pos hc] at hg
        simp only [Bool.and_eq_true, decide_eq_true_eq] at hc
        have hpx : p x = true := hc.1
        have hfx : h0 < f x := hc.2
        rcases ih (some x) (f x) m h hg with ⟨hb, hh, hall⟩ | ⟨l1, l2, hl, hh, hpm, hlt, hl1, hl2⟩
        · right
          have hxm : x = m := Option.some.injEq x m ▸ hb.symm ▸ rfl
          refine ⟨[], xs, ?_, ?_, ?_, ?_, ?_, ?_⟩
          · simp [hxm]
          · rw [← hh, hxm]
          · rw [← hxm]; exact hpx
          · rw [← hxm]; exact hfx
          · intro y hy; simp at hy
          · intro y hy hpy
            have := hall y hy hpy
            rw [← hh, hxm] at this
            exact this
        · right
          refine ⟨x :: l1, l2, by simp [hl], hh, hpm, lt_trans hfx hlt, ?_, hl2⟩
          intro y hy hpy
          rcases List.mem_cons.mp hy with rfl | hy2
          · exact hlt
          · exact hl1 y hy2 hpy
      · rw [if_neg hc] at hg
        have hnot : ∀ hp : p x = true, ¬ (h0 < f x) := by
          intro hp hlt
          exact hc (by rw [hp, decide_eq_true hlt]; rfl)
        rcases ih b0 h0 m h hg with ⟨hb, hh, hall⟩ | ⟨l1, l2, hl, hh, hpm, hlt, hl1, hl2⟩
        · left
          refine ⟨hb, hh, ?_⟩
          intro y hy hpy
          rcases List.mem_cons.mp hy with rfl | hy2
          · rw [← hh]; exact Nat.le_of_not_lt (hnot hpy)
          · exact hall y hy2 hpy
        · right
          refine ⟨x :: l1, l2, by simp [hl], hh, hpm, hlt, ?_, hl2⟩
          intro y hy hpy
          rcases List.mem_cons.mp hy with rfl | hy2
          · exact lt_of_le_of_lt (Nat.le_of_not_lt (hnot hpy)) hlt
          · exact hl1 y hy2 hpy

/-! ## Claim C7 -/

/-- Claim C7 counterexample: the normalizer does not merely strip a leading
article and trailing whitespace.  `clean_title` removes the pattern `the `
everywhere in the title (here in the middle of `Beyond the Sea`) and strips
leading whitespace too, so it disagrees with the claimed behavior
`clean_title_claimed` on these inputs. -/
theorem clean_title_counterexample :
    clean_title "Beyond the Sea" = "beyond sea" ∧
    clean_title_claimed "Beyond the Sea" = "beyond the sea" ∧
    (clean_title "Beyond the Sea" == clean_title_claimed "Beyond the Sea") = false ∧
    clean_title " x " = "x" ∧
    clean_title_claimed " x " = " x" ∧
    (clean_title " x " == clean_title_claimed " x ") = false := by
  refine ⟨by decide, by decide, by decide, by decide, by decide, by decide⟩

/-- Claim C7 (amended): `clean_title` maps every title to the result of
folding it to lower case, removing every occurrence of the four-character
pattern `the ` (scanning left to right, not only a leading article), and
stripping whitespace from both ends; it is total and deterministic and maps
the empty string to the empty string.  Stated as agreement with
`clean_title_amended`, an independent formulation of that description via
`splitOnThe`. -/
theorem clean_title_amended_ok (t : String) :
    clean_title t = clean_title_amended t ∧ clean_title "" = "" := by
  constructor
  · by_cases h : t = ""
    · subst h; decide
    · simp [clean_title, clean_title_amended, h, removeThe_eq_flatten]
  · decide

/-! ## Claim C10 -/

/-- Claim C10: for an entry whose year field is the empty string the
title+year tier returns no match at all — the exact branch and the fuzzy
branch both require the candidate's stringified year to equal the entry's
year string, and an integer year never stringifies to the empty string —
so a match for a year-less entry can only come from the identifier tier or
the title-only tier. -/
theorem title_year_tier_empty_year (sim : String → String → Nat)
    (movies : List LibraryItem) (title orig : String) :
    find_movie_by_title_year sim movies title "" orig = none ∧
    (∀ i : Int, (py_str_int i == "") = false) ∧
    (∀ (row : SourceRow) (iid : String) (m : LibraryItem) (meth : String),
      row.year = "" → matched_cascade sim movies iid row = some (some (m, meth)) →
      meth = "IMDB ID" ∨ meth = "Title Only Fuzzy Match") := by
  have hempty : ∀ m : LibraryItem, (py_str_int m.year == "") = false :=
    fun m => py_str_int_beq_empty m.year
  have hexact : ∀ t o, exactTY movies t "" o = none := by
    intro t o
    rw [exactTY, List.find?_eq_none]
    intro m _
    rw [hempty m, Bool.and_false]
    simp
  have hfuzzy : ∀ t o, fuzzyTY sim movies t "" o = none := by
    intro t o
    rw [fuzzyTY, tyGo_gate_false _ _ movies none 0 (fun m _ => hempty m)]
  have hmain : ∀ t o, find_movie_by_title_year sim movies t "" o = none := by
    intro t o
    rw [find_movie_by_title_year, hexact t o, hfuzzy t o]
  refine ⟨hmain title orig, fun i => py_str_int_beq_empty i, ?_⟩
  intro row iid m meth hyear hc
  rw [matched_cascade] at hc
  rcases hid : imdb_map_get movies iid with _ | mi
  · rw [hid] at hc
    rw [hyear, hmain row.title row.original_title] at hc
    rcases hto : find_movie_by_title sim movies row.title row.original_title with _ | mt
    · rw [hto] at hc
      exact absurd hc (by simp)
    · rw [hto] at hc
      simp at hc
      right
      exact hc.2.symm
  · rw [hid] at hc
    simp at hc
    left
    exact hc.2.symm

/-- Witness for claim C10 at concrete inputs: the title+year tier yields
nothing for `rowNoYear`'s empty year even though the library holds a
same-title candidate, and a concrete identifier-tier match under an empty
year carries the method `IMDB ID`. -/
theorem title_year_tier_empty_year_witness :
    find_movie_by_title_year (simConst 100) [mvFoo] "Bar" "" "" = none ∧
    ("IMDB ID" = "IMDB ID" ∨ "IMDB ID" = "Title Only Fuzzy Match") :=
  ⟨(title_year_tier_empty_year (simConst 100) [mvFoo] "Bar" "").1,
   (title_year_tier_empty_year (simConst 100) [mvArrival] "Arrival" "").2.2
     rowNoYear "tt2543164" mvArrival "IMDB ID" rfl (by decide)⟩

/-! ## Claim C4 -/

/-- Claim C4: identifier precedence.  When the entry's IMDB id is present
in the library's identifier index, the cascade resolves to that indexed
item with match method `IMDB ID` for every similarity scorer whatsoever,
so neither fuzzy tier is consulted and no fuzzy score can override the
identifier match. -/
theorem id_precedence (movies : List LibraryItem) (iid : String) (row : SourceRow)
    (m : LibraryItem) (h : imdb_map_get movies iid = some m) :
    ∀ sim : String → String → Nat,
      matched_cascade sim movies iid row = some (some (m, "IMDB ID")) := by
  intro sim
  rw [matched_cascade, h]

/-- Witness for claim C4: `mvArrival` is indexed under `tt2543164`, and the
cascade with a scorer that rates every pair 100 still resolves by id. -/
theorem id_precedence_witness :
    imdb_map_get [mvArrival] "tt2543164" = some mvArrival ∧
    matched_cascade (simConst 100) [mvArrival] "tt2543164" rowArrival =
      some (some (mvArrival, "IMDB ID")) :=
  ⟨by decide,
   id_precedence [mvArrival] "tt2543164" rowArrival mvArrival (by decide) (simConst 100)⟩

/-! ## Claim C5 -/

/-- Claim C5: in the fuzzy branch of the title+year tier (exact pass
empty), any returned candidate has a stringified year equal to the entry's
year string, belongs to the library snapshot, scores at least 85, its score
is maximal among year-matching candidates, and every year-matching
candidate seen earlier in the snapshot scores strictly less (so the first
maximizer wins ties); in particular a non-year-matching candidate is never
returned, whatever it scores. -/
theorem title_year_fuzzy_chr (sim : String → String → Nat) (movies : List LibraryItem)
    (title year orig : String) (m : LibraryItem)
    (hex : exactTY movies title year orig = none)
    (h : find_movie_by_title_year sim movies title year orig = some m) :
    py_str_int m.year = year ∧ 85 ≤ tyScore sim title orig m ∧
    (∀ x ∈ movies, py_str_int x.year = year →
      tyScore sim title orig x ≤ tyScore sim title orig m) ∧
    ∃ l1 l2, movies = l1 ++ m :: l2 ∧
      (∀ x ∈ l1, py_str_int x.year = year →
        tyScore sim title orig x < tyScore sim title orig m) := by
  rw [find_movie_by_title_year, hex] at h
  dsimp only at h
  rw [fuzzyTY] at h
  rcases hg : tyGo (fun x => py_str_int x.year == year) (tyScore sim title orig)
      movies none 0 with ⟨b, hi⟩
  rw [hg] at h
  rcases b with _ | mb
  · dsimp only at h
    exact absurd h (by simp)
  · dsimp only at h
    have hm : mb = m ∧ 85 ≤ hi := by
      by_cases h85 : 85 ≤ hi
      · rw [if_pos h85] at h
        exact ⟨Option.some_injective _ h, h85⟩
      · rw [if_neg h85] at h
        exact absurd h (by simp)
    rcases hm with ⟨rfl, h85⟩
    rcases tyGo_chr _ _ movies none 0 mb hi hg with ⟨hb, _, _⟩ | ⟨l1, l2, hl, hh, hpm, _, hl1, hl2⟩
    · exact absurd hb (by simp)
    · have hyq : py_str_int mb.year = year := by
        have := hpm
        simp only [beq_iff_eq] at this
        exact this
      refine ⟨hyq, hh ▸ h85, ?_, l1, l2, hl, ?_⟩
      · intro x hx hxy
        have hpx : (py_str_int x.year == year) = true := by
          simp only [beq_iff_eq]; exact hxy
        rw [hl] at hx
        rcases List.mem_append.mp hx with hx1 | hx2
        · exact le_of_lt (hl1 x hx1 hpx)
        · rcases List.mem_cons.mp hx2 with rfl | hx3
          · exact le_refl _
          · exact hl2 x hx3 hpx
      · intro x hx hxy
        exact hl1 x hx (by simp only [beq_iff_eq]; exact hxy)

/-- Witness for claim C5: a library of two same-titled items where only the
second carries the entry's year; the tier returns the year-matching one
(with score 90 from a constant scorer) and the conclusions evaluate. -/
theorem title_year_fuzzy_chr_witness :
    exactTY [mvOld, mvFoo] "Bar" "2000" "" = none ∧
    find_movie_by_title_year (simConst 90) [mvOld, mvFoo] "Bar" "2000" "" = some mvFoo ∧
    py_str_int mvFoo.year = "2000" :=
  ⟨by decide, by decide,
   (title_year_fuzzy_chr (simConst 90) [mvOld, mvFoo] "Bar" "2000" "" mvFoo
     (by decide) (by decide)).1⟩

/-! ## Claim C6 -/

/-- Claim C6: for an entry that fails the identifier and title+year tiers
and whose best title-only candidate is accepted (score at least 90), the
match is discarded — the cascade reports no match — exactly when the
entry's year is nonempty and the candidate's year differs from it by more
than 2; with an empty entry year the veto is skipped and the match is
accepted with method `Title Only Fuzzy Match`.  The entry's nonempty year
is assumed parseable (on an unparseable nonempty year the run dies in
`int(year)` instead). -/
theorem title_only_veto (sim : String → String → Nat) (movies : List LibraryItem)
    (iid : String) (row : SourceRow) (m : LibraryItem)
    (hid : imdb_map_get movies iid = none)
    (hty : find_movie_by_title_year sim movies row.title row.year row.original_title = none)
    (hto : find_movie_by_title sim movies row.title row.original_title = some m)
    (hwf : row.year = "" ∨ (pyInt row.year).isSome) :
    (matched_cascade sim movies iid row = some none ↔
      row.year ≠ "" ∧ ∃ y, pyInt row.year = some y ∧ 2 < (m.year - y).natAbs) ∧
    (row.year = "" →
      matched_cascade sim movies iid row = some (some (m, "Title Only Fuzzy Match"))) := by
  rw [matched_cascade, hid, hty, hto]
  dsimp only
  rcases hy : row.year == "" with _ | _
  · have hyne : row.year ≠ "" := by
      intro hcon
      rw [hcon] at hy
      simp at hy
    have hne : (row.year != "") = true := by simp [bne, hy]
    rw [if_pos hne]
    rcases hwf with hcon | hsome
    · exact absurd hcon hyne
    · rcases hpy : pyInt row.year with _ | y
      · rw [hpy] at hsome
        exact absurd hsome (by simp)
      · dsimp only
        by_cases hfar : 2 < (m.year - y).natAbs
        · rw [if_pos hfar]
          exact ⟨⟨fun _ => ⟨hyne, y, rfl, hfar⟩, fun _ => rfl⟩, fun hcon => absurd hcon hyne⟩
        · rw [if_neg hfar]
          refine ⟨⟨fun hcon => absurd hcon (by simp), ?_⟩, fun hcon => absurd hcon hyne⟩
          rintro ⟨_, y2, hy2, hfar2⟩
          rcases Option.some_injective _ hy2 with rfl
          exact absurd hfar2 hfar
  · have hyeq : row.year = "" := by simpa using hy
    have hne : ¬ ((row.year != "") = true) := by simp [bne, hy]
    rw [if_neg hne]
    refine ⟨⟨fun hcon => absurd hcon (by simp), ?_⟩, fun _ => rfl⟩
    rintro ⟨hcon, _⟩
    exact absurd hyeq hcon

/-- Witness for claim C6: the title-only tier matches `rowFar` (year 2016)
to `mvOld` (year 1990) with score 90, and the cascade vetoes the match
because the years are 26 apart; it also exercises the empty-year case on
`rowNoYear`, where the match is accepted. -/
theorem title_only_veto_witness :
    imdb_map_get [mvOld] "tt9" = none ∧
    find_movie_by_title (simConst 90) [mvOld] "Bar" "" = some mvOld ∧
    matched_cascade (simConst 90) [mvOld] "tt9" rowFar = some none ∧
    matched_cascade (simConst 90) [mvOld] "tt8" rowNoYear =
      some (some (mvOld, "Title Only Fuzzy Match")) :=
  ⟨by decide, by decide,
   ((title_only_veto (simConst 90) [mvOld] "tt9" rowFar mvOld (by decide) (by decide)
      (by decide) (Or.inr (by decide))).1).mpr
     ⟨by decide, 2016, by decide, by decide⟩,
   (title_only_veto (simConst 90) [mvOld] "tt8" rowNoYear mvOld (by decide) (by decide)
      (by decide) (Or.inl rfl)).2 rfl⟩

theorem pass1_isSome (c : SourceRow → Option ClassifyResult) :
    ∀ (rows : List SourceRow) (st p1 : Pass1Out),
      pass1 c rows st = some p1 → ∀ row ∈ rows, (c row).isSome := by
  intro rows
  induction rows with
  | nil =>
      intro st p1 _ row hr
      simp at hr
  | cons x xs ih =>
      intro st p1 hp row hr
      rw [pass1] at hp
      rcases hc : c x with _ | r
      · rw [hc] at hp
        exact absurd hp (by simp)
      · rcases List.mem_cons.mp hr with rfl | hr2
        · simp [hc]
        · rw [hc] at hp
          rcases r with r | r | r | ⟨m, r2, meth⟩ <;>
            (dsimp only at hp; exact ih _ _ hp row hr2)

theorem pass1_spec (c : SourceRow → Option ClassifyResult) :
    ∀ (rows : List SourceRow) (st : Pass1Out),
      (∀ row ∈ rows, (c row).isSome) →
      pass1 c rows st = some
        { reports := st.reports ++ rows.filterMap (p1ReportOf c)
          pending := st.pending ++ rows.filterMap (p1PendingOf c)
          skipped := st.skipped + rows.countP (fun row => isSkipRow c row)
          missing := st.missing + rows.countP (fun row => isMissRow c row) } := by
  intro rows
  induction rows with
  | nil =>
      intro st _
      simp [pass1]
  | cons x xs ih =>
      intro st hall
      have hx : (c x).isSome := hall x (by simp)
      have hrest : ∀ row ∈ xs, (c row).isSome :=
        fun row hr => hall row (List.mem_cons_of_mem _ hr)
      rcases hc : c x with _ | r
      · rw [hc] at hx
        simp at hx
      · rw [pass1, hc]
        rcases r with r | r | r | ⟨m, r2, meth⟩ <;>
          (dsimp only;
           rw [ih _ hrest];
           simp only [Option.some.injEq, Pass1Out.mk.injEq];
           refine ⟨?_, ?_, ?_, ?_⟩ <;>
             (simp [List.filterMap_cons, List.countP_cons, p1ReportOf, p1PendingOf,
                isSkipRow, isMissRow, hc, List.append_assoc];
              try omega))

theorem pass2_spec (addOk : LibraryItem → Bool) :
    ∀ pen : List (LibraryItem × ReportRecord × String),
      pass2 addOk pen =
        (pen.map (fun q => commitReport (addOk q.1) q.1 q.2.1 q.2.2),
         pen.countP (fun q => addOk q.1),
         pen.countP (fun q => !addOk q.1),
         pen.map (fun q => q.1)) := by
  intro pen
  induction pen with
  | nil => rfl
  | cons q qs ih =>
      rcases q with ⟨m, r, meth⟩
      rw [pass2, ih]
      rcases hok : addOk m with _ | _ <;>
        simp [List.countP_cons, hok]

theorem report_pending_length (c : SourceRow → Option ClassifyResult) :
    ∀ rows : List SourceRow, (∀ row ∈ rows, (c row).isSome) →
      (rows.filterMap (p1ReportOf c)).length + (rows.filterMap (p1PendingOf c)).length
        = rows.length := by
  intro rows
  induction rows with
  | nil => intro _; rfl
  | cons x xs ih =>
      intro hall
      have hx : (c x).isSome := hall x (by simp)
      have hrest := ih (fun row hr => hall row (List.mem_cons_of_mem _ hr))
      rcases hc : c x with _ | r
      · rw [hc] at hx
        simp at hx
      · rcases r with r | r | r | ⟨m, r2, meth⟩ <;>
          (simp [List.filterMap_cons, p1ReportOf, p1PendingOf, hc];
           omega)

theorem row_trichotomy (c : SourceRow → Option ClassifyResult) :
    ∀ rows : List SourceRow, (∀ row ∈ rows, (c row).isSome) →
      rows.countP (fun row => isSkipRow c row) + rows.countP (fun row => isMissRow c row)
        + (rows.filterMap (p1PendingOf c)).length = rows.length := by
  intro rows
  induction rows with
  | nil => intro _; rfl
  | cons x xs ih =>
      intro hall
      have hx : (c x).isSome := hall x (by simp)
      have hrest := ih (fun row hr => hall row (List.mem_cons_of_mem _ hr))
      rcases hc : c x with _ | r
      · rw [hc] at hx
        simp at hx
      · rcases r with r | r | r | ⟨m, r2, meth⟩ <;>
          (simp [List.filterMap_cons, List.countP_cons, isSkipRow, isMissRow,
             p1PendingOf, hc] at hrest ⊢;
           omega)

theorem pen_count_split (addOk : LibraryItem → Bool) :
    ∀ pen : List (LibraryItem × ReportRecord × String),
      pen.countP (fun q => addOk q.1) + pen.countP (fun q => !addOk q.1) = pen.length := by
  intro pen
  induction pen with
  | nil => rfl
  | cons q qs ih =>
      rcases hok : addOk q.1 with _ | _ <;>
        (simp [List.countP_cons, hok]; omega)

theorem run_imdb_list_eq (sim : String → String → Nat) (addOk : LibraryItem → Bool)
    (movies cItems : List LibraryItem) (rows : List SourceRow)
    (h : ∀ row ∈ rows,
      (classify_entry sim movies (find_existing_collection_items cItems) row).isSome) :
    run_imdb_list sim addOk movies cItems rows = some
      { reports :=
          rows.filterMap
              (p1ReportOf (classify_entry sim movies (find_existing_collection_items cItems)))
            ++ (rows.filterMap
                (p1PendingOf (classify_entry sim movies (find_existing_collection_items cItems)))).map
                (fun q => commitReport (addOk q.1) q.1 q.2.1 q.2.2)
        added :=
          (rows.filterMap
            (p1PendingOf (classify_entry sim movies (find_existing_collection_items cItems)))).countP
            (fun q => addOk q.1)
        skipped :=
          rows.countP (fun row =>
            isSkipRow (classify_entry sim movies (find_existing_collection_items cItems)) row)
        missing :=
          rows.countP (fun row =>
              isMissRow (classify_entry sim movies (find_existing_collection_items cItems)) row)
            + (rows.filterMap
                (p1PendingOf (classify_entry sim movies (find_existing_collection_items cItems)))).countP
                (fun q => !addOk q.1)
        invocations :=
          (rows.filterMap
            (p1PendingOf (classify_entry sim movies (find_existing_collection_items cItems)))).map
            (fun q => q.1) } := by
  rw [run_imdb_list]
  rw [pass1_spec _ rows ⟨[], [], 0, 0⟩ h]
  dsimp only
  rw [pass2_spec]
  simp

theorem run_some_elim (sim : String → String → Nat) (addOk : LibraryItem → Bool)
    (movies cItems : List LibraryItem) (rows : List SourceRow) (res : RunResult)
    (h : run_imdb_list sim addOk movies cItems rows = some res) :
    ∀ row ∈ rows,
      (classify_entry sim movies (find_existing_collection_items cItems) row).isSome := by
  rw [run_imdb_list] at h
  rcases hp : pass1 (classify_entry sim movies (find_existing_collection_items cItems))
      rows ⟨[], [], 0, 0⟩ with _ | p1
  · rw [hp] at h
    exact absurd h (by simp)
  · exact pass1_isSome _ rows _ p1 hp

/-! ## Claim C1 -/

/-- Claim C1 counterexample: the final report does not list the records in
original source order.  With source rows titled `Arrival` (matched, queued
for addition) then `B` (no IMDB id, reported at once), the run's report
lists `B`'s record first and `Arrival`'s second, because error / missing /
already-member records are appended during the classification pass while
added / failed-add records are appended only during the commit pass. -/
theorem run_report_order_counterexample :
    [rowArrival, rowNoUrl].map SourceRow.title = ["Arrival", "B"] ∧
    (run_imdb_list simEq addAlways [mvArrival] [] [rowArrival, rowNoUrl]).map
      (fun res => res.reports.map ReportRecord.title) = some ["B", "Arrival"] := by
  refine ⟨by decide, by decide⟩

/-- Claim C1 (amended): whenever a run completes (no year-veto crash), the
final report holds exactly one record per source entry — N records for N
entries — but ordered as: first the records of all entries settled during
the classification pass (error / missing / already-member), in source
order, then the records of all committed entries (added / failed add), in
source order; not the overall source order the claim stated. -/
theorem run_report_structure (sim : String → String → Nat) (addOk : LibraryItem → Bool)
    (movies cItems : List LibraryItem) (rows : List SourceRow) (res : RunResult)
    (h : run_imdb_list sim addOk movies cItems rows = some res) :
    res.reports =
      rows.filterMap
          (p1ReportOf (classify_entry sim movies (find_existing_collection_items cItems)))
        ++ (rows.filterMap
            (p1PendingOf (classify_entry sim movies (find_existing_collection_items cItems)))).map
            (fun q => commitReport (addOk q.1) q.1 q.2.1 q.2.2) ∧
    res.reports.length = rows.length := by
  have hs := run_some_elim sim addOk movies cItems rows res h
  rw [run_imdb_list_eq sim addOk movies cItems rows hs] at h
  rcases Option.some_injective _ h.symm with rfl
  refine ⟨rfl, ?_⟩
  dsimp only
  rw [List.length_append, List.length_map]
  exact report_pending_length _ rows hs

/-- Witness for the amended claim C1 at a concrete run: two rows, one
queued and added, one erroring at once; the report has both structure and
length 2. -/
theorem run_report_structure_witness :
    run_imdb_list simEq addAlways [mvArrival] [] [rowArrival, rowNoUrl] = some resW ∧
    resW.reports.length = [rowArrival, rowNoUrl].length :=
  ⟨by decide,
   (run_report_structure simEq addAlways [mvArrival] [] [rowArrival, rowNoUrl] resW
     (by decide)).2⟩

/-! ## Claim C2 -/

/-- Claim C2: whenever a run completes, every entry lands in exactly one
summary bucket, so the added, skipped (already-member) and missing-or-failed
counters sum to the number of source entries; a failed add-capability call
is counted in the missing-or-failed counter. -/
theorem run_counts_sum (sim : String → String → Nat) (addOk : LibraryItem → Bool)
    (movies cItems : List LibraryItem) (rows : List SourceRow) (res : RunResult)
    (h : run_imdb_list sim addOk movies cItems rows = some res) :
    res.added + res.skipped + res.missing = rows.length ∧
    res.reports.length = rows.length ∧
    res.missing =
      rows.countP (fun row =>
          isMissRow (classify_entry sim movies (find_existing_collection_items cItems)) row)
        + (rows.filterMap
            (p1PendingOf (classify_entry sim movies (find_existing_collection_items cItems)))).countP
            (fun q => !addOk q.1) := by
  have hs := run_some_elim sim addOk movies cItems rows res h
  rw [run_imdb_list_eq sim addOk movies cItems rows hs] at h
  rcases Option.some_injective _ h.symm with rfl
  refine ⟨?_, ?_, rfl⟩
  · dsimp only
    have h1 := row_trichotomy _ rows hs
    have h2 := pen_count_split addOk
      (rows.filterMap
        (p1PendingOf (classify_entry sim movies (find_existing_collection_items cItems))))
    omega
  · dsimp only
    rw [List.length_append, List.length_map]
    exact report_pending_length _ rows hs

/-- Witness for claim C2: the concrete witness run has counters
1 + 0 + 1 = 2 = number of rows. -/
theorem run_counts_sum_witness :
    run_imdb_list simEq addAlways [mvArrival] [] [rowArrival, rowNoUrl] = some resW ∧
    resW.added + resW.skipped + resW.missing = [rowArrival, rowNoUrl].length ∧
    resW.reports.length = [rowArrival, rowNoUrl].length :=
  ⟨by decide,
   (run_counts_sum simEq addAlways [mvArrival] [] [rowArrival, rowNoUrl] resW (by decide)).1,
   (run_counts_sum simEq addAlways [mvArrival] [] [rowArrival, rowNoUrl] resW (by decide)).2.1⟩

/-! ## Claim C9 -/

/-- Claim C9: commit ordering.  The sequence of add-capability invocations
of a completed run is exactly the pending list accumulated in source order
during classification (the matched, not-already-member entries), each
invoked once; and the invocation sequence is the same for every
add-capability oracle, so one failed invocation never prevents a later one
and the run is never aborted by a failure. -/
theorem commit_order (sim : String → String → Nat) (addOk : LibraryItem → Bool)
    (movies cItems : List LibraryItem) (rows : List SourceRow) (res : RunResult)
    (h : run_imdb_list sim addOk movies cItems rows = some res) :
    res.invocations =
      (rows.filterMap
        (p1PendingOf (classify_entry sim movies (find_existing_collection_items cItems)))).map
        (fun q => q.1) ∧
    ∀ addOk2 : LibraryItem → Bool,
      (run_imdb_list sim addOk2 movies cItems rows).map RunResult.invocations =
        some res.invocations := by
  have hs := run_some_elim sim addOk movies cItems rows res h
  rw [run_imdb_list_eq sim addOk movies cItems rows hs] at h
  rcases Option.some_injective _ h.symm with rfl
  refine ⟨rfl, ?_⟩
  intro addOk2
  rw [run_imdb_list_eq sim addOk2 movies cItems rows hs]
  rfl

/-- Witness for claim C9: in the concrete witness run the single
invocation is the pending `mvArrival`, also under the always-failing
oracle. -/
theorem commit_order_witness :
    run_imdb_list simEq addAlways [mvArrival] [] [rowArrival, rowNoUrl] = some resW ∧
    (run_imdb_list simEq addNever [mvArrival] [] [rowArrival, rowNoUrl]).map
      RunResult.invocations = some resW.invocations :=
  ⟨by decide,
   (commit_order simEq addAlways [mvArrival] [] [rowArrival, rowNoUrl] resW
     (by decide)).2 addNever⟩

/-! ## Claim C8 -/

/-- Claim C8 counterexample: an entry with no extractable IMDB id does not
proceed to the fuzzy tiers.  Although the library holds a candidate that
the title-only tier would match (the scorer rates every pair 100), the run
reports the entry with the terminal status `ERROR: No IMDB ID found` and
performs no invocation, instead of letting it end FuzzyMatched. -/
theorem no_id_counterexample :
    find_imdb_id rowNoUrl.url = none ∧
    find_movie_by_title (simConst 100) [mvFoo] rowNoUrl.title rowNoUrl.original_title
      = some mvFoo ∧
    (run_imdb_list (simConst 100) addAlways [mvFoo] [] [rowNoUrl]).map
      (fun res => res.reports.map ReportRecord.status) = some ["ERROR: No IMDB ID found"] ∧
    (run_imdb_list (simConst 100) addAlways [mvFoo] [] [rowNoUrl]).map
      RunResult.invocations = some [] := by
  refine ⟨by decide, by decide, by decide, by decide⟩

/-- Claim C8 (amended): an entry whose external identifier cannot be
extracted from its URL is terminally classified with the error status
`ERROR: No IMDB ID found` and counted as missing-or-failed, without
consulting the identifier index or either fuzzy tier: its classification is
the same whatever the similarity scorer, the library snapshot and the
membership index are, so it can never end FuzzyMatched. -/
theorem no_id_terminal (sim sim2 : String → String → Nat)
    (movies movies2 : List LibraryItem) (ex ex2 : MembershipKeys) (row : SourceRow)
    (h : find_imdb_id row.url = none) :
    classify_entry sim movies ex row =
      some (.errored { baseReport row none with
        status := "ERROR: No IMDB ID found"
        notes := "Invalid URL: " ++ row.url }) ∧
    classify_entry sim movies ex row = classify_entry sim2 movies2 ex2 row ∧
    isMissRow (classify_entry sim movies ex) row = true := by
  have h1 : ∀ (s : String → String → Nat) (mv : List LibraryItem) (k : MembershipKeys),
      classify_entry s mv k row =
        some (.errored { baseReport row none with
          status := "ERROR: No IMDB ID found"
          notes := "Invalid URL: " ++ row.url }) := by
    intro s mv k
    rw [classify_entry, h]
  refine ⟨h1 sim movies ex, (h1 sim movies ex).trans (h1 sim2 movies2 ex2).symm, ?_⟩
  simp [isMissRow, h1 sim movies ex]

/-- Witness for the amended claim C8: the concrete no-id row classifies to
the same error record under two different scorers, libraries and
membership indexes. -/
theorem no_id_terminal_witness :
    find_imdb_id rowNoUrl.url = none ∧
    classify_entry simEq [mvArrival] ⟨[], []⟩ rowNoUrl =
      classify_entry (simConst 0) [] ⟨[42], ["tt2543164"]⟩ rowNoUrl :=
  ⟨by decide,
   (no_id_terminal simEq (simConst 0) [mvArrival] [] ⟨[], []⟩ ⟨[42], ["tt2543164"]⟩
     rowNoUrl (by decide)).2.1⟩

/-! ## Claim C3 -/

theorem classify_member_growth (sim : String → String → Nat) (movies : List LibraryItem)
    (K1 K2 : MembershipKeys) (row : SourceRow)
    (hsome : (classify_entry sim movies K1 row).isSome)
    (hsub1 : ∀ k, K1.ratingKeys.contains k = true → K2.ratingKeys.contains k = true)
    (hsub2 : ∀ i, K1.imdbIds.contains i = true → K2.imdbIds.contains i = true)
    (hpend : ∀ m r meth, classify_entry sim movies K1 row = some (.pending m r meth) →
      K2.ratingKeys.contains m.ratingKey = true) :
    (classify_entry sim movies K2 row).isSome ∧
    p1PendingOf (classify_entry sim movies K2) row = none ∧
    ((p1PendingOf (classify_entry sim movies K1) row).isSome →
      isSkipRow (classify_entry sim movies K2) row = true) := by
  rcases hurl : find_imdb_id row.url with _ | iid
  · have hcl : ∀ K : MembershipKeys, classify_entry sim movies K row =
        some (.errored { baseReport row none with
          status := "ERROR: No IMDB ID found"
          notes := "Invalid URL: " ++ row.url }) := by
      intro K
      rw [classify_entry, hurl]
    exact ⟨by rw [hcl K2]; rfl, by simp [p1PendingOf, hcl K2],
      fun hp => absurd hp (by simp [p1PendingOf, hcl K1])⟩
  · rcases hcas : matched_cascade sim movies iid row with _ | o
    · have hnone : classify_entry sim movies K1 row = none := by
        rw [classify_entry, hurl]
        dsimp only
        rw [hcas]
      rw [hnone] at hsome
      simp at hsome
    · rcases o with _ | ⟨m, meth⟩
      · have hcl : ∀ K : MembershipKeys, classify_entry sim movies K row =
            some (.missing { baseReport row (some iid) with
              status := "MISSING: Not found in Plex library"
              notes := "Could not match by IMDB ID, title+year, or title only" }) := by
          intro K
          rw [classify_entry, hurl]
          dsimp only
          rw [hcas]
        exact ⟨by rw [hcl K2]; rfl, by simp [p1PendingOf, hcl K2],
          fun hp => absurd hp (by simp [p1PendingOf, hcl K1])⟩
      · have hcl : ∀ K : MembershipKeys, classify_entry sim movies K row =
            if K.ratingKeys.contains m.ratingKey || K.imdbIds.contains iid then
              some (.skipped { baseReport row (some iid) with
                status := "SKIPPED:"
                match_method := meth
                plex_title := m.title
                plex_year := py_str_int m.year })
            else some (.pending m (baseReport row (some iid)) meth) := by
          intro K
          rw [classify_entry, hurl]
          dsimp only
          rw [hcas]
        rcases hb1 : (K1.ratingKeys.contains m.ratingKey || K1.imdbIds.contains iid)
            with _ | _
        · have hc1 : classify_entry sim movies K1 row =
              some (.pending m (baseReport row (some iid)) meth) := by
            rw [hcl K1, if_neg (by rw [hb1]; simp)]
          have hk2 : K2.ratingKeys.contains m.ratingKey = true :=
            hpend m (baseReport row (some iid)) meth hc1
          have hc2 : classify_entry sim movies K2 row =
              some (.skipped { baseReport row (some iid) with
                status := "SKIPPED:"
                match_method := meth
                plex_title := m.title
                plex_year := py_str_int m.year }) := by
            rw [hcl K2, if_pos (by rw [hk2]; rfl)]
          exact ⟨by rw [hc2]; rfl, by simp [p1PendingOf, hc2],
            fun _ => by simp [isSkipRow, hc2]⟩
        · have hb2 : (K2.ratingKeys.contains m.ratingKey || K2.imdbIds.contains iid)
              = true := by
            have hd := hb1
            rw [Bool.or_eq_true] at hd ⊢
            rcases hd with ha | hb
            · exact Or.inl (hsub1 _ ha)
            · exact Or.inr (hsub2 _ hb)
          have hc2 : classify_entry sim movies K2 row =
              some (.skipped { baseReport row (some iid) with
                status := "SKIPPED:"
                match_method := meth
                plex_title := m.title
                plex_year := py_str_int m.year }) := by
            rw [hcl K2, if_pos hb2]
          exact ⟨by rw [hc2]; rfl, by simp [p1PendingOf, hc2],
            fun _ => by simp [isSkipRow, hc2]⟩

/-- Claim C3 counterexample: with an always-failing add capability, the run
over `[rowArrival]` against the empty grouping adds nothing (`added = 0`),
so the unchanged grouping already contains every item the first run added;
re-running the engine against the same source list and that same grouping
is this very same (deterministic) run — and it performs one add invocation,
not the zero the claim demands, because the previously failed entry is
still pending and is retried. -/
theorem idempotence_counterexample :
    (run_imdb_list simEq addNever [mvArrival] [] [rowArrival]).map
      (fun res => (res.added, res.invocations.length)) = some (0, 1) := by
  decide

/-- Claim C3 (amended): if a run completes and every add invocation it
performed succeeded, then re-running the engine with the same scorer over
the same source list and library, against a grouping extended with exactly
the items the first run added (each indexed by the membership index under
its rating key and, when present, its IMDB id), performs zero add
invocations, adds nothing, and classifies every entry that the first run
queued for addition as already a member (skipped). -/
theorem idempotent_rerun (sim : String → String → Nat) (addOk addOk2 : LibraryItem → Bool)
    (movies cItems : List LibraryItem) (rows : List SourceRow) (res1 : RunResult)
    (h1 : run_imdb_list sim addOk movies cItems rows = some res1)
    (hok : ∀ m ∈ res1.invocations, addOk m = true) :
    (run_imdb_list sim addOk2 movies
        (cItems ++ res1.invocations.filter (fun m => addOk m)) rows).map
      RunResult.invocations = some [] ∧
    (run_imdb_list sim addOk2 movies
        (cItems ++ res1.invocations.filter (fun m => addOk m)) rows).map
      RunResult.added = some 0 ∧
    ∀ row ∈ rows,
      (p1PendingOf (classify_entry sim movies (find_existing_collection_items cItems))
        row).isSome →
      isSkipRow (classify_entry sim movies
        (find_existing_collection_items
          (cItems ++ res1.invocations.filter (fun m => addOk m)))) row = true := by
  have hs1 := run_some_elim sim addOk movies cItems rows res1 h1
  rw [run_imdb_list_eq sim addOk movies cItems rows hs1] at h1
  have hres := Option.some_injective _ h1.symm
  subst hres
  dsimp only at hok ⊢
  have hfl : ((rows.filterMap
        (p1PendingOf (classify_entry sim movies (find_existing_collection_items cItems)))).map
        (fun q => q.1)).filter (fun m => addOk m) =
      (rows.filterMap
        (p1PendingOf (classify_entry sim movies (find_existing_collection_items cItems)))).map
        (fun q => q.1) :=
    List.filter_eq_self.mpr hok
  rw [hfl]
  have hrow : ∀ row ∈ rows,
      (classify_entry sim movies
        (find_existing_collection_items (cItems ++ (rows.filterMap
          (p1PendingOf (classify_entry sim movies (find_existing_collection_items cItems)))).map
          (fun q => q.1))) row).isSome ∧
      p1PendingOf (classify_entry sim movies
        (find_existing_collection_items (cItems ++ (rows.filterMap
          (p1PendingOf (classify_entry sim movies (find_existing_collection_items cItems)))).map
          (fun q => q.1)))) row = none ∧
      ((p1PendingOf (classify_entry sim movies (find_existing_collection_items cItems))
          row).isSome →
        isSkipRow (classify_entry sim movies
          (find_existing_collection_items (cItems ++ (rows.filterMap
            (p1PendingOf (classify_entry sim movies (find_existing_collection_items cItems)))).map
            (fun q => q.1)))) row = true) := by
    intro row hr
    refine classify_member_growth sim movies (find_existing_collection_items cItems)
      (find_existing_collection_items (cItems ++ (rows.filterMap
        (p1PendingOf (classify_entry sim movies (find_existing_collection_items cItems)))).map
        (fun q => q.1))) row (hs1 row hr) ?_ ?_ ?_
    · intro k hk
      dsimp only [find_existing_collection_items] at hk ⊢
      rw [List.map_append]
      exact List.elem_eq_true_of_mem
        (List.mem_append_left _ (List.mem_of_elem_eq_true hk))
    · intro i hi
      dsimp only [find_existing_collection_items] at hi ⊢
      rw [List.filterMap_append]
      exact List.elem_eq_true_of_mem
        (List.mem_append_left _ (List.mem_of_elem_eq_true hi))
    · intro m r meth hcl
      dsimp only [find_existing_collection_items]
      rw [List.map_append]
      have hp : p1PendingOf (classify_entry sim movies
          (find_existing_collection_items cItems)) row = some (m, r, meth) := by
        simp [p1PendingOf, hcl]
      have hm : m ∈ (rows.filterMap
          (p1PendingOf (classify_entry sim movies (find_existing_collection_items cItems)))).map
          (fun q => q.1) :=
        List.mem_map.mpr ⟨(m, r, meth), List.mem_filterMap.mpr ⟨row, hr, hp⟩, rfl⟩
      exact List.elem_eq_true_of_mem
        (List.mem_append_right _ (List.mem_map.mpr ⟨m, hm, rfl⟩))
  have hs2 := fun row hr => (hrow row hr).1
  have hpen2 : rows.filterMap (p1PendingOf (classify_entry sim movies
      (find_existing_collection_items (cItems ++ (rows.filterMap
        (p1PendingOf (classify_entry sim movies (find_existing_collection_items cItems)))).map
        (fun q => q.1))))) = [] :=
    List.filterMap_eq_nil_iff.mpr (fun row hr => (hrow row hr).2.1)
  refine ⟨?_, ?_, fun row hr hp => (hrow row hr).2.2 hp⟩
  · rw [run_imdb_list_eq sim addOk2 movies _ rows hs2]
    simp [hpen2]
  · rw [run_imdb_list_eq sim addOk2 movies _ rows hs2]
    simp [hpen2]

/-- Witness for the amended claim C3: the witness run adds `mvArrival`
successfully; re-running against the grouping extended with the added item
performs zero invocations. -/
theorem idempotent_rerun_witness :
    run_imdb_list simEq addAlways [mvArrival] [] [rowArrival, rowNoUrl] = some resW ∧
    (run_imdb_list simEq addAlways [mvArrival]
        ([] ++ resW.invocations.filter (fun m => addAlways m)) [rowArrival, rowNoUrl]).map
      RunResult.invocations = some [] :=
  ⟨by decide,
   (idempotent_rerun simEq addAlways addAlways [mvArrival] [] [rowArrival, rowNoUrl] resW
     (by decide) (by decide)).1⟩
